import Mathlib

/-!
The echo-rest server: the request handlers, the router and the shutdown path
of `main.go`.

A shallow embedding of `src/main.go`.  The Go functions `setupHeader`,
`logRequest`, `simpleHandler`, `echoHandler` and the two sequential parts of
`main` (route registration, the path after the interrupt) are translated as
state-passing functions.  The objects they act on come from Go's standard
library and from gorilla/mux; their documented contracts are modelled next to
the code that uses them:

* `io.Reader` / `ioutil.ReadAll` : a body is a finite script of `Read`
  results; `ReadAll` returns the bytes read so far together with the error;
* `http.ResponseWriter` : the header map is snapshotted by the first
  `WriteHeader`; later changes of the map do not reach the client; the bytes
  written in reply to a `HEAD` request are not sent;
* `http.Server` : it answers `OPTIONS *` itself and writes status 200 when a
  handler returns without having written a status;
* `log` : every call is recorded, in program order, in one event trace
  shared with the calls made on the `ResponseWriter`;
* `mux.Router` : a request whose path is not in clean form is redirected;
  otherwise routes are tried in registration order, a route matches when its
  path template and its method list both match.
-/

namespace EchoRest

/-! ## Data model -/

/-- One byte of a request or response body. -/
abbrev Byte := UInt8

/-- An error returned by `Read` other than `io.EOF`. -/
structure ReadError where
  msg : String
  deriving DecidableEq, Repr

/-- The result of one call of `Read` on a request body before its end:
`data p` is `(len p, nil)`, `fail p e` is `(len p, e)` with `e` not `io.EOF`. -/
inductive ReadStep where
  | data (p : List Byte)
  | fail (p : List Byte) (e : ReadError)
  deriving DecidableEq, Repr

/-- The state of a request body (`io.ReadCloser`): the results its future
`Read` calls will give, in order.  Once the list is used up every `Read`
returns `(0, io.EOF)`: the stream is read-once. -/
abbrev ReadCloser := List ReadStep

/-- The Go type `http.Header`, as the list of its entries.  For a request, the
entries stand in the order in which the `range` loop of `logRequest` visits
them (Go leaves that order unspecified). -/
abbrev Header := List (String × List String)

/-- The part of `url.URL` the program uses: `Path` is matched by the router,
`rendered` is the text `URL.String()` returns. -/
structure URL where
  Path : String
  rendered : String
  deriving DecidableEq, Repr

/-- The Go method `(*url.URL).String`. -/
def URL.String (u : URL) : String := u.rendered

/-- The Go type `http.Request`, restricted to the fields the program reads. -/
structure Request where
  Method : String
  URL : URL
  Header : Header
  Body : ReadCloser
  deriving DecidableEq, Repr

/-- An argument handed to the logger: a Go string given as text, a slice of
strings, or a Go string obtained from bytes by `string(b)`. -/
inductive Value where
  | str (s : String)
  | strs (l : List String)
  | bytes (b : List Byte)
  deriving DecidableEq, Repr

/-- One call on the standard logger. -/
inductive LogEntry where
  | println (args : List Value)
  | printf (format : String) (args : List Value)
  deriving DecidableEq, Repr

/-- One externally visible call made while a request is handled. -/
inductive Event where
  | log (e : LogEntry)
  | writeHeader (code : Nat)
  | headerSet (key value : String)
  | write (p : List Byte)
  deriving DecidableEq, Repr

/-- The constant `http.StatusOK`. -/
def StatusOK : Nat := 200

/-- The bytes of a Go string literal (UTF-8). -/
def stringBytes (s : String) : List Byte := s.toList.flatMap String.utf8EncodeChar

/-! ## `ioutil.ReadAll` -/

/-- The Go function `ioutil.ReadAll` on a body: it calls `Read` until an error
or `io.EOF` and returns the bytes read up to there, the error (`none` for
`io.EOF`), and leaves the stream where it stopped. -/
def ReadAll : ReadCloser → (List Byte × Option ReadError) × ReadCloser
  | [] => (([], none), [])
  | ReadStep.data p :: rest =>
      let res := ReadAll rest
      ((p ++ res.1.1, res.1.2), res.2)
  | ReadStep.fail p e :: rest => ((p, some e), rest)

/-! ## `http.ResponseWriter` -/

/-- The value of the first entry with key `k`, as `Header.Get` returns it
(the empty string when there is none). -/
def Header.Get (h : Header) (k : String) : String :=
  match h.find? (fun kv => kv.1 == k) with
  | some kv => kv.2.headD ""
  | none => ""

/-- The Go method `Header.Set`: the entry of key `k` holds the single value
`v` afterwards. -/
def Header.Set (h : Header) (k v : String) : Header :=
  (k, [v]) :: h.filter (fun kv => !(kv.1 == k))

/-- The state of the server's `http.ResponseWriter` for one request.
`handlerHeader` is the map `Header()` returns; `sentHeader` is the copy of it
taken when the status line is written, the one that goes to the client;
`body` is the bytes the handler has handed to `Write`, in order; `sent` is
the part of them that goes to the client as the response body;
`superfluous` counts the `WriteHeader` calls made after the first, which the
server ignores. -/
structure ResponseWriter where
  handlerHeader : Header
  wroteHeader : Bool
  status : Nat
  sentHeader : Header
  body : List Byte
  superfluous : Nat
  sent : List Byte
  deriving DecidableEq, Repr

/-- The writer the server hands to a handler: nothing written, empty map. -/
def ResponseWriter.fresh : ResponseWriter :=
  { handlerHeader := [], wroteHeader := false, status := 0, sentHeader := [],
    body := [], superfluous := 0, sent := [] }

/-- The Go method `WriteHeader`: the first call fixes the status and the
headers that are sent; a later call is ignored. -/
def ResponseWriter.WriteHeader (w : ResponseWriter) (code : Nat) : ResponseWriter :=
  if w.wroteHeader then { w with superfluous := w.superfluous + 1 }
  else { w with wroteHeader := true, status := code, sentHeader := w.handlerHeader }

/-- The call `w.Header().Set(k, v)`: it changes the handler's map only. -/
def ResponseWriter.HeaderSet (w : ResponseWriter) (k v : String) : ResponseWriter :=
  { w with handlerHeader := w.handlerHeader.Set k v }

/-- The Go method `Write` on the writer of a request with method `method`: it
writes the status line with `http.StatusOK` when none was written yet, then
accepts the bytes; the server sends them to the client unless the request
method is `HEAD`, for which it sends no body. -/
def ResponseWriter.Write (w : ResponseWriter) (method : String) (p : List Byte) :
    ResponseWriter :=
  let w1 := if w.wroteHeader then w
    else { w with wroteHeader := true, status := StatusOK, sentHeader := w.handlerHeader }
  { w1 with body := w1.body ++ p,
            sent := if method = "HEAD" then w1.sent else w1.sent ++ p }

/-- The end of a request in the server: when the handler has returned without
writing a status line, the server writes it with `http.StatusOK`. -/
def ResponseWriter.finishRequest (w : ResponseWriter) : ResponseWriter :=
  if w.wroteHeader then w
  else { w with wroteHeader := true, status := StatusOK, sentHeader := w.handlerHeader }

/-! ## The handlers of `main.go` -/

/-- The objects a handler acts on: the request `r` (its body advances as it
is read), the response writer `w`, and the trace of the calls made so far. -/
structure World where
  r : Request
  w : ResponseWriter
  events : List Event
  deriving DecidableEq, Repr

/-- The state in which the server calls a handler for request `r`. -/
def World.start (r : Request) : World :=
  { r := r, w := ResponseWriter.fresh, events := [] }

/-- The call `log.Println(args...)`. -/
def logPrintln (args : List Value) (s : World) : World :=
  { s with events := s.events ++ [Event.log (LogEntry.println args)] }

/-- The call `log.Printf(format, args...)`. -/
def logPrintf (format : String) (args : List Value) (s : World) : World :=
  { s with events := s.events ++ [Event.log (LogEntry.printf format args)] }

/-- The call `w.WriteHeader(code)`. -/
def WriteHeader (code : Nat) (s : World) : World :=
  { s with w := s.w.WriteHeader code, events := s.events ++ [Event.writeHeader code] }

/-- The call `w.Header().Set(k, v)`. -/
def HeaderSet (k v : String) (s : World) : World :=
  { s with w := s.w.HeaderSet k v, events := s.events ++ [Event.headerSet k v] }

/-- The call `io.WriteString(w, s)` with the bytes of the string. -/
def WriteString (p : List Byte) (s : World) : World :=
  { s with w := s.w.Write s.r.Method p, events := s.events ++ [Event.write p] }

/-- The call `ioutil.ReadAll(r.Body)`: the result and the world in which the
body has advanced. -/
def readAllBody (s : World) : (List Byte × Option ReadError) × World :=
  let res := ReadAll s.r.Body
  (res.1, { s with r := { s.r with Body := res.2 } })

/-- The Go function `setupHeader`: status first, `Content-Type` afterwards. -/
def setupHeader (s : World) : World :=
  let s := WriteHeader StatusOK s
  let s := HeaderSet "Content-Type" "application/json" s
  s

/-- The Go function `logRequest`. -/
def logRequest (s : World) : World :=
  let s := logPrintln [] s
  let s := logPrintln [Value.str s.r.URL.String] s
  let s := logPrintln [Value.str s.r.Method] s
  let s := s.r.Header.foldl
    (fun s kv => logPrintf "%q: %q\n" [Value.str kv.1, Value.strs kv.2] s) s
  let res := readAllBody s
  let bodyBytes := res.1.1
  let s := res.2
  let bodyString := bodyBytes
  logPrintln [Value.bytes bodyString] s

/-- The string literal written by `simpleHandler`. -/
def aliveText : String := "\x7b\"alive\": true\x7d"

/-- The Go function `simpleHandler`. -/
def simpleHandler (s : World) : World :=
  let s := logRequest s
  WriteString (stringBytes aliveText) (setupHeader s)

/-- The Go function `echoHandler`. -/
def echoHandler (s : World) : World :=
  let s := logRequest s
  let res := readAllBody s
  let bodyBytes := res.1.1
  let s := res.2
  let bodyString := bodyBytes
  WriteString bodyString (setupHeader s)

/-! ## The router built in `main` -/

/-- The two handler functions registered in `main`. -/
inductive HandlerFunc where
  | simpleHandler
  | echoHandler
  deriving DecidableEq, Repr

/-- One registered route of a `mux.Router`: a path template without
variables, the accepted methods, the handler. -/
structure Route where
  path : String
  methods : List String
  handler : HandlerFunc
  deriving DecidableEq, Repr

/-- The Go type `mux.Router`: its routes in registration order. -/
structure Router where
  routes : List Route
  deriving DecidableEq, Repr

/-- The Go function `mux.NewRouter`. -/
def NewRouter : Router := { routes := [] }

/-- The Go function `strings.ToUpper` on ASCII text (the method names given
in `main` are ASCII). -/
def ToUpper (s : String) : String := String.mk (s.toList.map Char.toUpper)

/-- The chained call `r.HandleFunc(path, f).Methods(methods...)`: one more
route at the end of the list; `Methods` stores the names in upper case. -/
def Router.HandleFunc (r : Router) (path : String) (f : HandlerFunc)
    (methods : List String) : Router :=
  { routes := r.routes ++ [{ path := path, methods := methods.map ToUpper, handler := f }] }

/-- A path template without variables matches the request path when they are
the same string (no strict-slash and no matching of path beginnings is configured). -/
def Route.matchPath (rt : Route) (path : String) : Bool := rt.path == path

/-- The method matcher of a route: the request method is in the list. -/
def Route.matchMethod (rt : Route) (method : String) : Bool := rt.methods.contains method

/-- What the router decides for a request. -/
inductive Dispatch where
  | handler (f : HandlerFunc)
  | methodNotAllowed
  | notFound
  deriving DecidableEq, Repr

/-- The Go method `(*mux.Router).Match`: the first route, in registration
order, whose path and method both match wins; when none does, a route whose
path matched makes the result a method mismatch. -/
def Router.Match (r : Router) (path method : String) : Dispatch :=
  match r.routes.find? (fun rt => rt.matchPath path && rt.matchMethod method) with
  | some rt => Dispatch.handler rt.handler
  | none =>
      if r.routes.any (fun rt => rt.matchPath path) then Dispatch.methodNotAllowed
      else Dispatch.notFound

/-- The method list both routes of `main` are registered with. -/
def routeMethods : List String := ["GET", "POST", "PUT", "DELETE", "OPTIONS", "HEAD"]

/-- The router of `main`: `/` for `simpleHandler`, `/echo` for `echoHandler`. -/
def router : Router :=
  let r := NewRouter
  let r := r.HandleFunc "/" HandlerFunc.simpleHandler routeMethods
  let r := r.HandleFunc "/echo" HandlerFunc.echoHandler routeMethods
  r

/-- The reply of `http.NotFound`, which the router uses when no route matches. -/
def notFoundReply (s : World) : World :=
  let s := HeaderSet "Content-Type" "text/plain; charset=utf-8" s
  let s := HeaderSet "X-Content-Type-Options" "nosniff" s
  let s := WriteHeader 404 s
  WriteString (stringBytes "404 page not found\n") s

/-- The pieces of a path between its slashes. -/
def splitSlash : List Char → List (List Char)
  | [] => [[]]
  | c :: cs =>
      if c = '/' then [] :: splitSlash cs
      else match splitSlash cs with
        | [] => [[c]]
        | x :: xs => (c :: x) :: xs

/-- The Go function `path.Clean` on a rooted path (the only kind mux passes
to it): empty and `.` elements are dropped, a `..` element removes the
element before it, or nothing at the root. -/
def Clean (p : List Char) : List Char :=
  let stack := (splitSlash p).foldl (fun st c =>
    if c = [] ∨ c = ['.'] then st
    else if c = ['.', '.'] then st.dropLast
    else st ++ [c]) []
  '/' :: List.intercalate ['/'] stack

/-- The function `cleanPath` of mux: the canonical form of a request path,
rooted, cleaned, with the trailing slash of the original kept. -/
def cleanPath (p : String) : String :=
  if p = "" then "/"
  else
    let cs := if p.toList.head? = some '/' then p.toList else '/' :: p.toList
    let np := Clean cs
    String.mk (if cs.getLast? = some '/' ∧ np ≠ ['/'] then np ++ ['/'] else np)

/-- The redirect mux sends for a path that is not in clean form: status 301
towards the clean path.  (The real `Location` value is the whole URL with the
clean path, query included.) -/
def redirectReply (p : String) (s : World) : World :=
  let s := HeaderSet "Location" p s
  WriteHeader 301 s

/-- The Go method `(*mux.Router).ServeHTTP` for the router of `main`: a path
that is not in clean form is redirected before any matching; otherwise the
matched handler runs, or the router itself answers 405 or 404. -/
def Router.ServeHTTP (rt : Router) (s : World) : World :=
  if cleanPath s.r.URL.Path ≠ s.r.URL.Path then redirectReply (cleanPath s.r.URL.Path) s
  else
    match rt.Match s.r.URL.Path s.r.Method with
    | Dispatch.handler HandlerFunc.simpleHandler => simpleHandler s
    | Dispatch.handler HandlerFunc.echoHandler => echoHandler s
    | Dispatch.methodNotAllowed => WriteHeader 405 s
    | Dispatch.notFound => notFoundReply s

/-- The reply of the server itself to `OPTIONS *`: an empty body, with the
status 200 the server writes at the end of the request.  (The server may also
read and drop the request body; the body state is left as it is here.) -/
def globalOptionsReply (s : World) : World :=
  HeaderSet "Content-Length" "0" s

/-- The end of a request, see `ResponseWriter.finishRequest`. -/
def finishRequest (s : World) : World :=
  { s with w := s.w.finishRequest }

/-- The server's treatment of one request: a fresh writer; `OPTIONS *` (the
request target `*`, whose path is `*`) is answered by the server itself, every
other request goes to the router of `main`; then the request is finished. -/
def serve (r : Request) : World :=
  let s := World.start r
  let s := if r.Method = "OPTIONS" ∧ r.URL.Path = "*" then globalOptionsReply s
    else router.ServeHTTP s
  finishRequest s

/-! ## The shutdown path of `main` -/

/-- The Go type `time.Duration`: a number of nanoseconds. -/
abbrev Duration := Int

/-- The constant `time.Second`. -/
def Second : Duration := 1000000000

/-- The value of `wait` after `flag.Parse()`: the `-graceful-timeout` value
when the flag is given, `time.Second*15` otherwise. -/
def gracefulTimeout (flagValue : Option Duration) : Duration :=
  flagValue.getD (Second * 15)

/-- What `srv.Shutdown(ctx)` returns. -/
inductive ShutdownResult where
  | ok
  | deadlineExceeded
  | error (msg : String)
  deriving DecidableEq, Repr

/-- One step of the main path after the interrupt. -/
inductive ProcEvent where
  | shutdown (deadline : Duration)
  | log (e : LogEntry)
  | exit (code : Int)
  deriving DecidableEq, Repr

/-- The statements of `main` that follow `<-c`: a context with timeout `wait`,
`srv.Shutdown(ctx)` whose result `res` is dropped, `log.Println("shutting
down")`, `os.Exit(0)`. -/
def mainAfterInterrupt (wait : Duration) (res : ShutdownResult) : List ProcEvent :=
  let ctxDeadline := wait
  let _ := res
  [ProcEvent.shutdown ctxDeadline,
   ProcEvent.log (LogEntry.println [Value.str "shutting down"]),
   ProcEvent.exit 0]

/-! ## Observations on a trace -/

/-- The status codes of the `WriteHeader` calls in a trace, in order. -/
def statusWrites (evs : List Event) : List Nat :=
  evs.filterMap (fun e => match e with
    | Event.writeHeader c => some c
    | _ => none)

/-- The log entries `logRequest` makes for a request whose body read gives
the bytes `b`. -/
def requestLog (r : Request) (b : List Byte) : List Event :=
  [Event.log (LogEntry.println []),
   Event.log (LogEntry.println [Value.str r.URL.String]),
   Event.log (LogEntry.println [Value.str r.Method])]
  ++ r.Header.map (fun kv =>
      Event.log (LogEntry.printf "%q: %q\n" [Value.str kv.1, Value.strs kv.2]))
  ++ [Event.log (LogEntry.println [Value.bytes b])]

/-- The log entries in a trace, in order. -/
def logEntries (evs : List Event) : List LogEntry :=
  evs.filterMap (fun e => match e with
    | Event.log l => some l
    | _ => none)

/-- The log entries in a run of the main path, in order. -/
def procLog (evs : List ProcEvent) : List LogEntry :=
  evs.filterMap (fun e => match e with
    | ProcEvent.log l => some l
    | _ => none)

/-- The exit codes in a run of the main path, in order. -/
def procExit (evs : List ProcEvent) : List Int :=
  evs.filterMap (fun e => match e with
    | ProcEvent.exit c => some c
    | _ => none)

/-! ## The requests used in the evaluations -/

/-- A `POST /echo` whose body delivers the single byte `a` and then ends. -/
def postEchoA : Request :=
  { Method := "POST", URL := { Path := "/echo", rendered := "/echo" }, Header := [],
    Body := [ReadStep.data [97]] }

/-- A `GET /` without headers and without body. -/
def getRoot : Request :=
  { Method := "GET", URL := { Path := "/", rendered := "/" }, Header := [], Body := [] }

/-- A `POST /echo` whose body delivers the byte `a` together with an error. -/
def postEchoBroken : Request :=
  { Method := "POST", URL := { Path := "/echo", rendered := "/echo" }, Header := [],
    Body := [ReadStep.fail [97] { msg := "unexpected EOF" }] }

/-- A `PUT /` with a query string, two headers and a body in two chunks. -/
def putRoot : Request :=
  Request.mk "PUT" (URL.mk "/" "/?probe=1")
    [("Accept", ["*/*"]), ("Content-Type", ["text/plain"])]
    [ReadStep.data [104, 105], ReadStep.data [33]]

/-- A `HEAD /` with a query string, one header and a two-byte body. -/
def headRoot : Request :=
  Request.mk "HEAD" (URL.mk "/" "/?x=1") [("Accept", ["*/*"])] [ReadStep.data [1, 2]]

/-! ## Lemmas -/

theorem ReadAll_data_chunks (cs : List (List Byte)) :
    ReadAll (cs.map ReadStep.data) = ((cs.flatten, none), []) := by
  induction cs with
  | nil => rfl
  | cons c cs ih => simp [ReadAll, ih]

theorem ReadAll_data_then_fail (cs : List (List Byte)) (p : List Byte) (e : ReadError)
    (rest : ReadCloser) :
    ReadAll (cs.map ReadStep.data ++ ReadStep.fail p e :: rest)
      = ((cs.flatten ++ p, some e), rest) := by
  induction cs with
  | nil => simp [ReadAll]
  | cons c cs ih => simp [ReadAll, ih]

theorem foldl_logPrintf (H : Header) (s : World) :
    H.foldl (fun s kv => logPrintf "%q: %q\n" [Value.str kv.1, Value.strs kv.2] s) s
      = { s with events := s.events ++ H.map (fun kv =>
            Event.log (LogEntry.printf "%q: %q\n" [Value.str kv.1, Value.strs kv.2])) } := by
  induction H generalizing s with
  | nil => simp
  | cons kv H ih =>
      simp only [List.foldl_cons, ih]
      simp [logPrintf]

theorem logRequest_eq (s : World) :
    logRequest s
      = { r := { s.r with Body := (ReadAll s.r.Body).2 },
          w := s.w,
          events := s.events ++ requestLog s.r (ReadAll s.r.Body).1.1 } := by
  simp [logRequest, foldl_logPrintf, logPrintln, readAllBody, requestLog]

theorem simpleHandler_eq (r : Request) :
    simpleHandler (World.start r)
      = { r := { r with Body := (ReadAll r.Body).2 },
          w := { handlerHeader := [("Content-Type", ["application/json"])],
                 wroteHeader := true, status := 200, sentHeader := [],
                 body := stringBytes aliveText, superfluous := 0,
                 sent := if r.Method = "HEAD" then [] else stringBytes aliveText },
          events := requestLog r (ReadAll r.Body).1.1
            ++ [Event.writeHeader 200, Event.headerSet "Content-Type" "application/json",
                Event.write (stringBytes aliveText)] } := by
  simp [simpleHandler, logRequest_eq, setupHeader, WriteHeader, HeaderSet, WriteString,
    World.start, ResponseWriter.fresh, ResponseWriter.WriteHeader, ResponseWriter.HeaderSet,
    ResponseWriter.Write, Header.Set, StatusOK]

theorem echoHandler_eq (r : Request) :
    echoHandler (World.start r)
      = { r := { r with Body := (ReadAll (ReadAll r.Body).2).2 },
          w := { handlerHeader := [("Content-Type", ["application/json"])],
                 wroteHeader := true, status := 200, sentHeader := [],
                 body := (ReadAll (ReadAll r.Body).2).1.1, superfluous := 0,
                 sent := if r.Method = "HEAD" then [] else (ReadAll (ReadAll r.Body).2).1.1 },
          events := requestLog r (ReadAll r.Body).1.1
            ++ [Event.writeHeader 200, Event.headerSet "Content-Type" "application/json",
                Event.write (ReadAll (ReadAll r.Body).2).1.1] } := by
  simp [echoHandler, logRequest_eq, readAllBody, setupHeader, WriteHeader, HeaderSet,
    WriteString, World.start, ResponseWriter.fresh, ResponseWriter.WriteHeader,
    ResponseWriter.HeaderSet, ResponseWriter.Write, Header.Set, StatusOK]

theorem statusWrites_requestLog (r : Request) (b : List Byte) :
    statusWrites (requestLog r b) = [] := by
  simp [statusWrites, requestLog, List.filterMap_append, List.filterMap_map]

theorem router_routes :
    router.routes
      = [{ path := "/", methods := routeMethods, handler := HandlerFunc.simpleHandler },
         { path := "/echo", methods := routeMethods, handler := HandlerFunc.echoHandler }] := by
  decide

theorem router_Match (P M : String) :
    router.Match P M
      = if P = "/" then
          (if M ∈ routeMethods then Dispatch.handler HandlerFunc.simpleHandler
           else Dispatch.methodNotAllowed)
        else if P = "/echo" then
          (if M ∈ routeMethods then Dispatch.handler HandlerFunc.echoHandler
           else Dispatch.methodNotAllowed)
        else Dispatch.notFound := by
  unfold Router.Match
  rw [router_routes]
  by_cases h1 : P = "/"
  · subst h1
    by_cases hM : M ∈ routeMethods
    · simp [List.find?, Route.matchPath, Route.matchMethod, hM]
    · simp [List.find?, Route.matchPath, Route.matchMethod, hM]
  · by_cases h2 : P = "/echo"
    · subst h2
      by_cases hM : M ∈ routeMethods
      · simp [List.find?, Route.matchPath, Route.matchMethod, hM]
      · simp [List.find?, Route.matchPath, Route.matchMethod, hM]
    · have e1 : ("/" == P) = false := by
        simpa using fun h : "/" = P => h1 h.symm
      have e2 : ("/echo" == P) = false := by
        simpa using fun h : "/echo" = P => h2 h.symm
      simp [List.find?, Route.matchPath, Route.matchMethod, h1, h2, e1, e2]

theorem cleanPath_root : cleanPath "/" = "/" := by decide

theorem cleanPath_echo : cleanPath "/echo" = "/echo" := by decide

theorem finishRequest_of_wrote (s : World) (h : s.w.wroteHeader = true) :
    finishRequest s = s := by
  simp [finishRequest, ResponseWriter.finishRequest, h]

theorem serve_simpleHandler (r : Request) (hP : r.URL.Path = "/")
    (hM : r.Method ∈ routeMethods) : serve r = simpleHandler (World.start r) := by
  have hs : ¬ ("/" = "*") := by decide
  have h : (if r.Method = "OPTIONS" ∧ r.URL.Path = "*" then globalOptionsReply (World.start r)
      else router.ServeHTTP (World.start r)) = simpleHandler (World.start r) := by
    rw [if_neg (by rw [hP]; exact fun h => hs h.2)]
    unfold Router.ServeHTTP
    simp only [World.start, hP, cleanPath_root, router_Match]
    simp [hM]
  unfold serve
  simp only [h]
  apply finishRequest_of_wrote
  rw [simpleHandler_eq]

theorem serve_echoHandler (r : Request) (hP : r.URL.Path = "/echo")
    (hM : r.Method ∈ routeMethods) : serve r = echoHandler (World.start r) := by
  have hs : ¬ ("/echo" = "*") := by decide
  have hne : ¬ ("/echo" = "/") := by decide
  have h : (if r.Method = "OPTIONS" ∧ r.URL.Path = "*" then globalOptionsReply (World.start r)
      else router.ServeHTTP (World.start r)) = echoHandler (World.start r) := by
    rw [if_neg (by rw [hP]; exact fun h => hs h.2)]
    unfold Router.ServeHTTP
    simp only [World.start, hP, cleanPath_echo, router_Match]
    simp [hM, hne]
  unfold serve
  simp only [h]
  apply finishRequest_of_wrote
  rw [echoHandler_eq]

theorem serve_other (r : Request)
    (h1 : ¬ (r.URL.Path = "/" ∧ r.Method ∈ routeMethods))
    (h2 : ¬ (r.URL.Path = "/echo" ∧ r.Method ∈ routeMethods)) :
    serve r
      = if r.Method = "OPTIONS" ∧ r.URL.Path = "*" then
          finishRequest (globalOptionsReply (World.start r))
        else if cleanPath r.URL.Path ≠ r.URL.Path then
          redirectReply (cleanPath r.URL.Path) (World.start r)
        else if r.URL.Path = "/" ∨ r.URL.Path = "/echo" then WriteHeader 405 (World.start r)
        else notFoundReply (World.start r) := by
  have hne : ¬ ("/echo" = "/") := by decide
  unfold serve
  by_cases ho : r.Method = "OPTIONS" ∧ r.URL.Path = "*"
  · simp only [if_pos ho]
  · simp only [if_neg ho]
    unfold Router.ServeHTTP
    by_cases hc : cleanPath r.URL.Path ≠ r.URL.Path
    · have hc2 : cleanPath (World.start r).r.URL.Path ≠ (World.start r).r.URL.Path := hc
      rw [if_pos hc2, if_pos hc]
      apply finishRequest_of_wrote
      simp [redirectReply, WriteHeader, HeaderSet, World.start, ResponseWriter.fresh,
        ResponseWriter.WriteHeader, ResponseWriter.HeaderSet]
    · have hc2 : ¬ cleanPath (World.start r).r.URL.Path ≠ (World.start r).r.URL.Path := hc
      rw [if_neg hc2, if_neg hc, router_Match]
      simp only [World.start]
      by_cases hp1 : r.URL.Path = "/"
      · have hM : r.Method ∉ routeMethods := fun hM => h1 ⟨hp1, hM⟩
        simp only [hp1, hM, if_true, if_false, true_or]
        apply finishRequest_of_wrote
        simp [WriteHeader, ResponseWriter.fresh, ResponseWriter.WriteHeader]
      · by_cases hp2 : r.URL.Path = "/echo"
        · have hM : r.Method ∉ routeMethods := fun hM => h2 ⟨hp2, hM⟩
          simp only [hp2, hM, hne, if_true, if_false, or_true]
          apply finishRequest_of_wrote
          simp [WriteHeader, ResponseWriter.fresh, ResponseWriter.WriteHeader]
        · simp only [hp1, hp2, if_false, or_self]
          apply finishRequest_of_wrote
          simp [notFoundReply, WriteHeader, HeaderSet, WriteString, ResponseWriter.fresh,
            ResponseWriter.WriteHeader, ResponseWriter.HeaderSet, ResponseWriter.Write]

theorem notFoundText_ne_aliveText :
    stringBytes "404 page not found\n" ≠ stringBytes aliveText := by
  decide

theorem nil_ne_aliveText : ([] : List Byte) ≠ stringBytes aliveText := by
  decide

theorem serve_other_facts (r : Request)
    (h1 : ¬ (r.URL.Path = "/" ∧ r.Method ∈ routeMethods))
    (h2 : ¬ (r.URL.Path = "/echo" ∧ r.Method ∈ routeMethods)) :
    logEntries (serve r).events = []
      ∧ (serve r).w.body ≠ stringBytes aliveText
      ∧ ((serve r).w.status ≠ 200
          ∨ (r.Method = "OPTIONS" ∧ r.URL.Path = "*" ∧ (serve r).w.body = []
              ∧ (serve r).w.sent = [])) := by
  rw [serve_other r h1 h2]
  by_cases ho : r.Method = "OPTIONS" ∧ r.URL.Path = "*"
  · rw [if_pos ho]
    refine ⟨?_, ?_, Or.inr ⟨ho.1, ho.2, ?_, ?_⟩⟩
    · simp [finishRequest, globalOptionsReply, HeaderSet, World.start, logEntries]
    · simpa [finishRequest, globalOptionsReply, HeaderSet, World.start, ResponseWriter.fresh,
        ResponseWriter.finishRequest, ResponseWriter.HeaderSet] using nil_ne_aliveText
    · simp [finishRequest, globalOptionsReply, HeaderSet, World.start, ResponseWriter.fresh,
        ResponseWriter.finishRequest, ResponseWriter.HeaderSet]
    · simp [finishRequest, globalOptionsReply, HeaderSet, World.start, ResponseWriter.fresh,
        ResponseWriter.finishRequest, ResponseWriter.HeaderSet]
  · rw [if_neg ho]
    by_cases hc : cleanPath r.URL.Path ≠ r.URL.Path
    · rw [if_pos hc]
      refine ⟨?_, ?_, Or.inl ?_⟩
      · simp [redirectReply, WriteHeader, HeaderSet, World.start, logEntries]
      · simpa [redirectReply, WriteHeader, HeaderSet, World.start, ResponseWriter.fresh,
          ResponseWriter.WriteHeader, ResponseWriter.HeaderSet] using nil_ne_aliveText
      · simp [redirectReply, WriteHeader, HeaderSet, World.start, ResponseWriter.fresh,
          ResponseWriter.WriteHeader, ResponseWriter.HeaderSet]
    · rw [if_neg hc]
      by_cases hp : r.URL.Path = "/" ∨ r.URL.Path = "/echo"
      · rw [if_pos hp]
        refine ⟨?_, ?_, Or.inl ?_⟩
        · simp [WriteHeader, World.start, logEntries]
        · simpa [WriteHeader, World.start, ResponseWriter.fresh, ResponseWriter.WriteHeader]
            using nil_ne_aliveText
        · simp [WriteHeader, World.start, ResponseWriter.fresh, ResponseWriter.WriteHeader]
      · rw [if_neg hp]
        refine ⟨?_, ?_, Or.inl ?_⟩
        · simp [notFoundReply, WriteString, WriteHeader, HeaderSet, World.start, logEntries]
        · simpa [notFoundReply, WriteString, WriteHeader, HeaderSet, World.start,
            ResponseWriter.fresh, ResponseWriter.WriteHeader, ResponseWriter.HeaderSet,
            ResponseWriter.Write] using notFoundText_ne_aliveText
        · simp [notFoundReply, WriteString, WriteHeader, HeaderSet, World.start,
            ResponseWriter.fresh, ResponseWriter.WriteHeader, ResponseWriter.HeaderSet,
            ResponseWriter.Write]

theorem aliveText_bytes :
    stringBytes aliveText
      = [123, 34, 97, 108, 105, 118, 101, 34, 58, 32, 116, 114, 117, 101, 125] := by
  decide

/-! ## The claims -/

/-- C1, evaluated on the code: for the `POST /echo` whose body is the one byte
`a`, `logRequest` logs that byte, and the response body `echoHandler` writes is
empty, not `a`; nothing is sent as the body. -/
theorem echoHandler_loses_body_postEchoA :
    (serve postEchoA).events
        = [Event.log (LogEntry.println []),
           Event.log (LogEntry.println [Value.str "/echo"]),
           Event.log (LogEntry.println [Value.str "POST"]),
           Event.log (LogEntry.println [Value.bytes [97]]),
           Event.writeHeader 200,
           Event.headerSet "Content-Type" "application/json",
           Event.write []]
      ∧ (serve postEchoA).w.body = []
      ∧ (serve postEchoA).w.body ≠ [97]
      ∧ (serve postEchoA).w.sent = []
      ∧ (serve postEchoA).w.sent ≠ [97] := by
  have h : serve postEchoA = echoHandler (World.start postEchoA) :=
    serve_echoHandler postEchoA rfl (by decide)
  rw [h, echoHandler_eq]
  simp [postEchoA, ReadAll, requestLog, URL.String]

/-- C2: for every `POST /echo` whose body is a read-once stream that delivers
its bytes in any chunks and then ends, `logRequest` leaves the stream at its
end, the second `ReadAll` yields no byte, and the response body written by
`echoHandler` is empty, as is the body sent to the client. -/
theorem echoHandler_response_empty (u : String) (H : Header) (chunks : List (List Byte)) :
    (logRequest (World.start
        (Request.mk "POST" (URL.mk "/echo" u) H (chunks.map ReadStep.data)))).r.Body = []
      ∧ ReadAll (logRequest (World.start
        (Request.mk "POST" (URL.mk "/echo" u) H (chunks.map ReadStep.data)))).r.Body = (([], none), [])
      ∧ (serve (Request.mk "POST" (URL.mk "/echo" u) H (chunks.map ReadStep.data))).w.body = []
      ∧ (serve (Request.mk "POST" (URL.mk "/echo" u) H (chunks.map ReadStep.data))).w.sent
          = [] := by
  have h : serve (Request.mk "POST" (URL.mk "/echo" u) H (chunks.map ReadStep.data))
      = echoHandler (World.start
          (Request.mk "POST" (URL.mk "/echo" u) H (chunks.map ReadStep.data))) :=
    serve_echoHandler _ rfl (by simp [routeMethods])
  refine ⟨?_, ?_, ?_, ?_⟩
  · simp [logRequest_eq, World.start, ReadAll_data_chunks]
  · simp [logRequest_eq, World.start, ReadAll_data_chunks, ReadAll]
  · rw [h]
    simp [echoHandler_eq, ReadAll_data_chunks, ReadAll]
  · rw [h]
    simp [echoHandler_eq, ReadAll_data_chunks, ReadAll]

/-- C3 as stated fails for `HEAD`: for the `HEAD /` request `headRoot` the
status is 200 and `simpleHandler` hands the liveness text to the writer, but no
body is sent, so the response body is not that text and differs from the one
sent for `GET /`. -/
theorem head_response_body_empty :
    headRoot.URL.Path = "/"
      ∧ headRoot.Method ∈ routeMethods
      ∧ (serve headRoot).w.status = 200
      ∧ (serve headRoot).w.sent = []
      ∧ (serve headRoot).w.sent ≠ stringBytes "\x7b\"alive\": true\x7d"
      ∧ (serve headRoot).w.sent ≠ (serve getRoot).w.sent := by
  have h : serve headRoot = simpleHandler (World.start headRoot) :=
    serve_simpleHandler headRoot rfl (by decide)
  have h0 : serve getRoot = simpleHandler (World.start getRoot) :=
    serve_simpleHandler getRoot rfl (by decide)
  rw [h, h0, simpleHandler_eq, simpleHandler_eq]
  refine ⟨rfl, by decide, rfl, by decide, by decide, by decide⟩

/-- C3, amended: for every request to `/` whose method is one of the six
registered ones, whatever its URL text, headers and body, the response has
status 200 and `simpleHandler` hands exactly the liveness text to the writer;
the body sent is exactly that text when the method is not `HEAD` and empty
when it is; the whole state of the response writer is that of `GET /` for a
method other than `HEAD` and that of the `HEAD /` above for `HEAD`. -/
theorem simpleHandler_alive (r : Request) (hP : r.URL.Path = "/")
    (hM : r.Method ∈ routeMethods) :
    (serve r).w.status = 200
      ∧ (serve r).w.body = stringBytes "\x7b\"alive\": true\x7d"
      ∧ (serve r).w.body
          = [123, 34, 97, 108, 105, 118, 101, 34, 58, 32, 116, 114, 117, 101, 125]
      ∧ (serve r).w.sent
          = (if r.Method = "HEAD" then []
             else [123, 34, 97, 108, 105, 118, 101, 34, 58, 32, 116, 114, 117, 101, 125])
      ∧ (serve r).w = (if r.Method = "HEAD" then (serve headRoot).w else (serve getRoot).w) := by
  have h : serve r = simpleHandler (World.start r) := serve_simpleHandler r hP hM
  have h0 : serve getRoot = simpleHandler (World.start getRoot) :=
    serve_simpleHandler getRoot rfl (by decide)
  have h1 : serve headRoot = simpleHandler (World.start headRoot) :=
    serve_simpleHandler headRoot rfl (by decide)
  have hg : ¬ (getRoot.Method = "HEAD") := by decide
  have hh : headRoot.Method = "HEAD" := rfl
  rw [h, h0, h1, simpleHandler_eq, simpleHandler_eq, simpleHandler_eq]
  refine ⟨rfl, rfl, aliveText_bytes, ?_, ?_⟩
  · simp only [aliveText_bytes]
  · by_cases hd : r.Method = "HEAD"
    · simp only [hd, hh, if_true]
    · simp only [hd, hg, if_false]

theorem simpleHandler_alive_witness :
    (putRoot.URL.Path = "/" ∧ putRoot.Method ∈ routeMethods)
      ∧ ((serve putRoot).w.status = 200
        ∧ (serve putRoot).w.body = stringBytes "\x7b\"alive\": true\x7d"
        ∧ (serve putRoot).w.body
            = [123, 34, 97, 108, 105, 118, 101, 34, 58, 32, 116, 114, 117, 101, 125]
        ∧ (serve putRoot).w.sent
            = (if putRoot.Method = "HEAD" then []
               else [123, 34, 97, 108, 105, 118, 101, 34, 58, 32, 116, 114, 117, 101, 125])
        ∧ (serve putRoot).w
            = (if putRoot.Method = "HEAD" then (serve headRoot).w else (serve getRoot).w)) :=
  ⟨⟨rfl, by decide⟩, simpleHandler_alive putRoot rfl (by decide)⟩

/-- C4, evaluated on the code: for `GET /` (handled by `simpleHandler`) and for
the `POST /echo` above (handled by `echoHandler`), the headers fixed when the
status line was written, which are the ones sent, hold no `Content-Type`;
`application/json` is only in the handler's map, set after the status
write. -/
theorem setupHeader_content_type_not_sent :
    (serve getRoot).w.sentHeader = []
      ∧ (serve getRoot).w.sentHeader.Get "Content-Type" ≠ "application/json"
      ∧ (serve getRoot).w.handlerHeader.Get "Content-Type" = "application/json"
      ∧ (serve postEchoA).w.sentHeader = []
      ∧ (serve postEchoA).w.sentHeader.Get "Content-Type" ≠ "application/json"
      ∧ (serve postEchoA).w.handlerHeader.Get "Content-Type" = "application/json"
      ∧ [Event.writeHeader 200, Event.headerSet "Content-Type" "application/json"]
          <:+: (serve getRoot).events := by
  have h0 : serve getRoot = simpleHandler (World.start getRoot) :=
    serve_simpleHandler getRoot rfl (by decide)
  have h1 : serve postEchoA = echoHandler (World.start postEchoA) :=
    serve_echoHandler postEchoA rfl (by decide)
  rw [h0, h1, simpleHandler_eq, echoHandler_eq]
  refine ⟨rfl, by decide, by decide, rfl, by decide, by decide, ?_⟩
  exact ⟨requestLog getRoot (ReadAll getRoot.Body).1.1,
    [Event.write (stringBytes aliveText)], by simp⟩

/-- C6: for every grace timeout and every result of `srv.Shutdown` (success,
deadline exceeded, any other error), the main path after the interrupt logs the
one line `shutting down` and then exits with code 0, the exit being its last
step; two runs that differ only in the result of the drain are the same. -/
theorem main_exit_zero_whatever_drain (flagValue : Option Duration)
    (res res2 : ShutdownResult) :
    procLog (mainAfterInterrupt (gracefulTimeout flagValue) res)
        = [LogEntry.println [Value.str "shutting down"]]
      ∧ procExit (mainAfterInterrupt (gracefulTimeout flagValue) res) = [0]
      ∧ [ProcEvent.log (LogEntry.println [Value.str "shutting down"]), ProcEvent.exit 0]
          <:+ mainAfterInterrupt (gracefulTimeout flagValue) res
      ∧ mainAfterInterrupt (gracefulTimeout flagValue) res
          = mainAfterInterrupt (gracefulTimeout flagValue) res2 := by
  refine ⟨rfl, rfl, ?_, rfl⟩
  exact ⟨[ProcEvent.shutdown (gracefulTimeout flagValue)], rfl⟩

/-- C7: for every request, with path `P` and method `M`: the router of `main`
matches `simpleHandler` exactly when `P` is `/` and `M` is one of the six
methods, and `echoHandler` exactly when `P` is `/echo` and `M` is one of them;
in the first case serving the request is the run of `simpleHandler`, in the
second the run of `echoHandler`, and for every other pair neither handler
runs: nothing is logged, the body written is not the liveness text, and the
status is not 200 unless the request is `OPTIONS *`, which the server answers
itself with an empty body. -/
theorem router_dispatch_exact (r : Request) :
    (router.Match r.URL.Path r.Method = Dispatch.handler HandlerFunc.simpleHandler
        ↔ (r.URL.Path = "/" ∧ r.Method ∈ ["GET", "POST", "PUT", "DELETE", "OPTIONS", "HEAD"]))
      ∧ (router.Match r.URL.Path r.Method = Dispatch.handler HandlerFunc.echoHandler
        ↔ (r.URL.Path = "/echo"
            ∧ r.Method ∈ ["GET", "POST", "PUT", "DELETE", "OPTIONS", "HEAD"]))
      ∧ (if r.URL.Path = "/" ∧ r.Method ∈ ["GET", "POST", "PUT", "DELETE", "OPTIONS", "HEAD"]
          then serve r = simpleHandler (World.start r)
         else if r.URL.Path = "/echo"
            ∧ r.Method ∈ ["GET", "POST", "PUT", "DELETE", "OPTIONS", "HEAD"]
          then serve r = echoHandler (World.start r)
         else (logEntries (serve r).events = []
            ∧ (serve r).w.body ≠ stringBytes "\x7b\"alive\": true\x7d"
            ∧ ((serve r).w.status ≠ 200
                ∨ (r.Method = "OPTIONS" ∧ r.URL.Path = "*" ∧ (serve r).w.body = []
                    ∧ (serve r).w.sent = [])))) := by
  have hne : ¬ ("/echo" = "/") := by decide
  have hm := router_Match r.URL.Path r.Method
  simp only [routeMethods] at hm
  refine ⟨?_, ?_, ?_⟩
  · rw [hm]
    by_cases h1 : r.URL.Path = "/"
    · by_cases hM : r.Method ∈ ["GET", "POST", "PUT", "DELETE", "OPTIONS", "HEAD"]
      · simp [h1, hM]
      · simp [h1, hM]
    · by_cases h2 : r.URL.Path = "/echo"
      · by_cases hM : r.Method ∈ ["GET", "POST", "PUT", "DELETE", "OPTIONS", "HEAD"]
        · simp [h2, hM]
        · simp [h2, hM]
      · simp [h1, h2]
  · rw [hm]
    by_cases h1 : r.URL.Path = "/"
    · by_cases hM : r.Method ∈ ["GET", "POST", "PUT", "DELETE", "OPTIONS", "HEAD"]
      · simp [h1, hM]
      · simp [h1, hM]
    · by_cases h2 : r.URL.Path = "/echo"
      · by_cases hM : r.Method ∈ ["GET", "POST", "PUT", "DELETE", "OPTIONS", "HEAD"]
        · simp [h2, hM]
        · simp [h2, hM]
      · simp [h1, h2]
  · by_cases c1 : r.URL.Path = "/"
        ∧ r.Method ∈ ["GET", "POST", "PUT", "DELETE", "OPTIONS", "HEAD"]
    · rw [if_pos c1]
      exact serve_simpleHandler r c1.1 c1.2
    · rw [if_neg c1]
      by_cases c2 : r.URL.Path = "/echo"
          ∧ r.Method ∈ ["GET", "POST", "PUT", "DELETE", "OPTIONS", "HEAD"]
      · rw [if_pos c2]
        exact serve_echoHandler r c2.1 c2.2
      · rw [if_neg c2]
        exact serve_other_facts r c1 c2

/-- C8 as stated fails: the body of `postEchoBroken` delivers the byte `a`
together with an error; the read in `logRequest` fails, and the body string
that is logged is `a`, not the empty string. -/
theorem logged_body_not_empty_on_read_error :
    (ReadAll postEchoBroken.Body).1.2 = some { msg := "unexpected EOF" }
      ∧ (logRequest (World.start postEchoBroken)).events.getLast?
          = some (Event.log (LogEntry.println [Value.bytes [97]]))
      ∧ (logRequest (World.start postEchoBroken)).events.getLast?
          ≠ some (Event.log (LogEntry.println [Value.bytes []])) := by
  rw [logRequest_eq]
  simp [postEchoBroken, World.start, ReadAll, requestLog]

/-- C8, amended: when the body read of `logRequest` fails after the stream
delivered the chunks `cs` and, with the error, the bytes `p`, the error is
dropped and the body string logged is exactly those bytes, as the last of the
usual log entries; `echoHandler` then writes, with status 200, the bytes its
own `ReadAll` obtains from the rest of the stream, and when that read fails
too, after `cs2` and `p2`, it writes exactly the bytes delivered before that
error; the bytes written are the body sent, except for `HEAD`, for which no
body is sent. -/
theorem read_error_keeps_delivered_bytes (M : String) (u : URL) (H : Header)
    (cs cs2 : List (List Byte)) (p p2 : List Byte) (e e2 : ReadError) (rest : ReadCloser) :
    (ReadAll (cs.map ReadStep.data ++ ReadStep.fail p e :: rest)).1
        = (cs.flatten ++ p, some e)
      ∧ (logRequest (World.start
          (Request.mk M u H (cs.map ReadStep.data ++ ReadStep.fail p e :: rest)))).events
        = [Event.log (LogEntry.println []),
           Event.log (LogEntry.println [Value.str u.String]),
           Event.log (LogEntry.println [Value.str M])]
          ++ H.map (fun kv =>
              Event.log (LogEntry.printf "%q: %q\n" [Value.str kv.1, Value.strs kv.2]))
          ++ [Event.log (LogEntry.println [Value.bytes (cs.flatten ++ p)])]
      ∧ (echoHandler (World.start
          (Request.mk M u H (cs.map ReadStep.data ++ ReadStep.fail p e :: rest)))).w.body
        = (ReadAll rest).1.1
      ∧ (echoHandler (World.start
          (Request.mk M u H (cs.map ReadStep.data ++ ReadStep.fail p e :: rest)))).w.status
        = 200
      ∧ (echoHandler (World.start
          (Request.mk M u H (cs.map ReadStep.data ++ ReadStep.fail p e ::
            (cs2.map ReadStep.data ++ ReadStep.fail p2 e2 :: rest))))).w.body
        = cs2.flatten ++ p2
      ∧ (echoHandler (World.start
          (Request.mk M u H (cs.map ReadStep.data ++ ReadStep.fail p e :: rest)))).w.sent
        = (if M = "HEAD" then [] else (ReadAll rest).1.1) := by
  refine ⟨?_, ?_, ?_, ?_, ?_, ?_⟩
  · rw [ReadAll_data_then_fail]
  · rw [logRequest_eq]
    simp [World.start, ReadAll_data_then_fail, requestLog]
  · rw [echoHandler_eq]
    simp [ReadAll_data_then_fail]
  · rw [echoHandler_eq]
  · rw [echoHandler_eq]
    simp [ReadAll_data_then_fail]
  · rw [echoHandler_eq]
    simp [ReadAll_data_then_fail]

/-- C9: for every request, whatever its body stream does (errors included),
each of the two handlers leaves the response with status 200, makes exactly one
`WriteHeader` call, with code 200, and none that the server has to ignore. -/
theorem handlers_status_200_once (r : Request) :
    ((simpleHandler (World.start r)).w.status = 200
        ∧ (simpleHandler (World.start r)).w.wroteHeader = true
        ∧ (simpleHandler (World.start r)).w.superfluous = 0
        ∧ statusWrites (simpleHandler (World.start r)).events = [200])
      ∧ ((echoHandler (World.start r)).w.status = 200
        ∧ (echoHandler (World.start r)).w.wroteHeader = true
        ∧ (echoHandler (World.start r)).w.superfluous = 0
        ∧ statusWrites (echoHandler (World.start r)).events = [200]) := by
  rw [simpleHandler_eq, echoHandler_eq]
  refine ⟨⟨rfl, rfl, rfl, ?_⟩, ⟨rfl, rfl, rfl, ?_⟩⟩
  · have h := statusWrites_requestLog r (ReadAll r.Body).1.1
    simp only [statusWrites] at h ⊢
    simp [List.filterMap_append, h]
  · have h := statusWrites_requestLog r (ReadAll r.Body).1.1
    simp only [statusWrites] at h ⊢
    simp [List.filterMap_append, h]

/-- C10: for every request with URL `u`, method `M`, headers `H` and a body
that delivers the bytes of `chunks` and ends, `logRequest` makes exactly these
log entries, in this order: a blank line, the URL text, the method, one entry
per header in the order of the iteration, and the whole body as text; it does
not touch the response writer, and in both handlers every call on the response
comes after these entries. -/
theorem logRequest_entries_in_order (M : String) (u : URL) (H : Header)
    (chunks : List (List Byte)) :
    (logRequest (World.start (Request.mk M u H (chunks.map ReadStep.data)))).events
        = [Event.log (LogEntry.println []),
           Event.log (LogEntry.println [Value.str u.String]),
           Event.log (LogEntry.println [Value.str M])]
          ++ H.map (fun kv =>
              Event.log (LogEntry.printf "%q: %q\n" [Value.str kv.1, Value.strs kv.2]))
          ++ [Event.log (LogEntry.println [Value.bytes chunks.flatten])]
      ∧ (logRequest (World.start (Request.mk M u H (chunks.map ReadStep.data)))).w
          = ResponseWriter.fresh
      ∧ (simpleHandler (World.start (Request.mk M u H (chunks.map ReadStep.data)))).events
          = (logRequest (World.start (Request.mk M u H (chunks.map ReadStep.data)))).events
            ++ [Event.writeHeader 200, Event.headerSet "Content-Type" "application/json",
                Event.write (stringBytes "\x7b\"alive\": true\x7d")]
      ∧ (echoHandler (World.start (Request.mk M u H (chunks.map ReadStep.data)))).events
          = (logRequest (World.start (Request.mk M u H (chunks.map ReadStep.data)))).events
            ++ [Event.writeHeader 200, Event.headerSet "Content-Type" "application/json",
                Event.write []] := by
  refine ⟨?_, ?_, ?_, ?_⟩
  · rw [logRequest_eq]
    simp [World.start, ReadAll_data_chunks, requestLog]
  · rw [logRequest_eq]
    simp [World.start]
  · rw [simpleHandler_eq, logRequest_eq]
    simp [World.start, aliveText]
  · rw [echoHandler_eq, logRequest_eq]
    simp [World.start, ReadAll_data_chunks, ReadAll]

end EchoRest
